import Mathlib

/-!
Verification of `demo/csrc/cpp/text_ocr.cxx` (mmdeploy OCR demo).

The demo is glue code around an opaque inference SDK and an opaque vision
library.  We embed it shallowly: the SDK (image decoding, text detection,
text recognition) is an environment of pure functions, and `mainRun` mirrors
`main` line by line, producing an exit code together with an ordered trace of
the observable calls the program makes (stderr/stdout writes, SDK object
construction, inference calls, polygon drawing, image writing).

Floating-point box coordinates are modelled as rationals; the C cast
`(int)` is modelled by `truncQ` (truncation toward zero) and the printf
format `%.2f` by `fmt2`.  The unchecked C++ indexing `texts[i]` is modelled
as a fallible lookup: `mainRun` returns `Except.error` exactly when such an
access would be out of bounds.
-/

set_option autoImplicit false

namespace TextOcr

/-- A 2-D point with rational coordinates (models `mmdeploy_point_t`,
whose fields `x`, `y` are floats). -/
structure Point where
  x : ℚ
  y : ℚ
deriving DecidableEq, Repr

/-- One text-detection result (models `mmdeploy_text_detection_t`):
the vertices of the detected box, and a confidence score.
The demo iterates over `bboxes[i].bbox` with a range-`for`, so the
vertices are kept as a list. -/
structure TextDetection where
  bbox : List Point
  score : ℚ
deriving DecidableEq, Repr

/-- One text-recognition result (models `mmdeploy_text_recognition_t`);
the demo only reads its `text` field. -/
structure TextRecognition where
  text : String
deriving DecidableEq, Repr, Inhabited

/-- A `cv::Mat` as the demo observes it: the path it was decoded from,
plus the polygons `cv::polylines` has drawn onto it so far (integer pixel
vertices). -/
structure Image where
  path : String
  polys : List (List (ℤ × ℤ))
deriving DecidableEq, Repr

/-- The opaque external world: `cv::imread` (`none` models a `cv::Mat`
with null `data`), `TextDetector::Apply` and `TextRecognizer::Apply`.
Their internals are out of the repository's scope, so they are arbitrary
pure functions. -/
structure Env where
  imread : String → Option Image
  detect : Image → List TextDetection
  recognize : Image → List TextDetection → List TextRecognition

/-- Observable calls made by `main`, in program order. -/
inductive Event where
  | writeStderr (s : String)
  | imreadCall (path : String)
  | mkContext (device : String) (index : ℕ)
  | mkProfiler (path : String)
  | addProfiler
  | mkDetector (modelPath : String)
  | mkRecognizer (modelPath : String)
  | detectCall (img : Image)
  | recognizeCall (img : Image) (boxes : List TextDetection)
  | writeStdout (s : String)
  | polylinesCall (points : List (ℤ × ℤ)) (closed : Bool) (color : ℕ × ℕ × ℕ)
  | imwriteCall (path : String) (img : Image)
deriving DecidableEq, Repr

/-- Truncation of a rational toward zero: the value of the C cast
`(int)pt.x` at line 46 (C++ float-to-int conversion truncates toward
zero).  Written on `num`/`den` so it evaluates by kernel reduction. -/
def truncQ (q : ℚ) : ℤ := q.num.sign * ((q.num.natAbs / q.den : ℕ) : ℤ)

/-- Rounding of a rational to the nearest integer (halves up), i.e.
`⌊q + 1/2⌋`: the conversion the demo does NOT use for polygon vertices. -/
def roundNearest (q : ℚ) : ℤ := (2 * q.num + (q.den : ℤ)).fdiv (2 * (q.den : ℤ))

/-- Left-pad a fractional part to two digits. -/
def pad2 (n : ℕ) : String := if n < 10 then "0" ++ toString n else toString n

/-- The printf conversion `%.2f`: round to the nearest hundredth
(`⌊100q + 1/2⌋`) and print with exactly two digits after the decimal
point. -/
def fmt2 (q : ℚ) : String :=
  let s : ℤ := (200 * q.num + (q.den : ℤ)).fdiv (2 * (q.den : ℤ))
  (if s < 0 then "-" else "") ++ toString (s.natAbs / 100) ++ "." ++ pad2 (s.natAbs % 100)

/-- The stdout text printed for one box vertex by line 45:
`fprintf(stdout, "x: %.2f, y: %.2f, ", pt.x, pt.y)`. -/
def fmtPoint (pt : Point) : String := "x: " ++ fmt2 pt.x ++ ", y: " ++ fmt2 pt.y ++ ", "

/-- The integer polygon accumulated in `poly_points` for one box
(line 46: `poly_points.emplace_back((int)pt.x, (int)pt.y)`). -/
def polyOf (pts : List Point) : List (ℤ × ℤ) := pts.map fun pt => (truncQ pt.x, truncQ pt.y)

/-- `cv::polylines` draws one more polygon onto the image (line 49). -/
def drawPoly (img : Image) (p : List (ℤ × ℤ)) : Image :=
  { img with polys := img.polys ++ [p] }

/-- The green `cv::Scalar{0, 255, 0}` passed to `cv::polylines`. -/
def green : ℕ × ℕ × ℕ := (0, 255, 0)

/-- The events of one iteration of the output loop body (lines 42–49) for
box number `i` with recognition result `t`: the `box[i]: text` header, one
`x: …, y: …, ` print per vertex, the closing newline, and the
`cv::polylines` call. -/
def boxEvents (i : ℕ) (t : TextRecognition) (b : TextDetection) : List Event :=
  Event.writeStdout ("box[" ++ toString i ++ "]: " ++ t.text ++ "\n")
    :: (b.bbox.map fun pt => Event.writeStdout (fmtPoint pt))
    ++ [Event.writeStdout "\n", Event.polylinesCall (polyOf b.bbox) true green]

/-- The output loop of lines 41–50: for `i = 0, 1, …` over the remaining
boxes, read `texts[i]` (an unchecked C++ access, modelled as fallible),
print the header and the vertex coordinates, and draw the polygon onto the
image.  Returns the image after all drawing together with the emitted
events. -/
def outputLoop (texts : List TextRecognition) :
    Image → ℕ → List TextDetection → Except String (Image × List Event)
  | img, _, [] => .ok (img, [])
  | img, i, b :: rest =>
    match texts[i]? with
    | none => .error ("out-of-bounds read: texts[" ++ toString i ++ "]")
    | some t =>
      match outputLoop texts (drawPoly img (polyOf b.bbox)) (i + 1) rest with
      | .error e => .error e
      | .ok r => .ok (r.1, boxEvents i t b ++ r.2)

/-- The warm-up loop of lines 33–36: `n` rounds of
`detector.Apply(img)` followed by
`recognizer.Apply(img, {bboxes.begin(), bboxes.size()})`, results unused. -/
def warmupEvents (env : Env) (img : Image) : ℕ → List Event
  | 0 => []
  | n + 1 =>
    Event.detectCall img :: Event.recognizeCall img (env.detect img)
      :: warmupEvents env img n

/-- The usage message printed at line 11 when `argc != 5`. -/
def usageMsg : String := "usage:\n  ocr device_name det_model_path reg_model_path image_path\n"

/-- The construction sequence of lines 26–31: context on device `argv[1]`
(index 0), profiler writing to the hardcoded path, `context.Add(profiler)`,
detector from `argv[2]`, recognizer from `argv[3]`. -/
def preEvents (argv : List String) : List Event :=
  [Event.mkContext (argv.getD 1 "") 0,
   Event.mkProfiler "/deploee-tmp/profile.bin",
   Event.addProfiler,
   Event.mkDetector (argv.getD 2 ""),
   Event.mkRecognizer (argv.getD 3 "")]

/-- Shallow embedding of `main` (lines 9–55).  Returns the exit code and
the ordered trace of observable calls, or `Except.error` when the program
would read `texts[i]` out of bounds (undefined behaviour in the C++). -/
def mainRun (argv : List String) (env : Env) : Except String (ℤ × List Event) :=
  if argv.length ≠ 5 then
    .ok (1, [Event.writeStderr usageMsg])
  else
    let image_path := argv.getD 4 ""
    match env.imread image_path with
    | none =>
      .ok (1, [Event.imreadCall image_path,
               Event.writeStderr ("failed to load image: " ++ image_path ++ "\n")])
    | some img =>
      let bboxes := env.detect img
      let texts := env.recognize img bboxes
      match outputLoop texts img 0 bboxes with
      | .error e => .error e
      | .ok r =>
        .ok (0, Event.imreadCall image_path
                  :: (preEvents argv
                  ++ (warmupEvents env img 20
                  ++ ([Event.detectCall img, Event.recognizeCall img bboxes]
                  ++ (r.2
                  ++ [Event.imwriteCall "output_ocr.png" r.1])))))

/-- The program completed (did not hit undefined behaviour). -/
def completes (r : Except String (ℤ × List Event)) : Bool :=
  match r with
  | .ok _ => true
  | .error _ => false

/-- The trace of a completed run (empty for an aborted one). -/
def runTrace (r : Except String (ℤ × List Event)) : List Event :=
  match r with
  | .ok p => p.2
  | .error _ => []

/-- The exit code of a completed run. -/
def runCode (r : Except String (ℤ × List Event)) : Option ℤ :=
  match r with
  | .ok p => some p.1
  | .error _ => none

/-- The two guard conditions of lines 10 and 19: wrong argument count, or
`cv::imread` produced an image with no data. -/
def GuardFail (argv : List String) (env : Env) : Prop :=
  argv.length ≠ 5 ∨ env.imread (argv.getD 4 "") = none

instance (argv : List String) (env : Env) : Decidable (GuardFail argv env) := by
  unfold GuardFail; infer_instance

/-! ### Event classifiers -/

/-- The event is a write to stdout. -/
def isStdout : Event → Bool
  | .writeStdout _ => true
  | _ => false

/-- The event is a write to stderr. -/
def isStderr : Event → Bool
  | .writeStderr _ => true
  | _ => false

/-- The event is an inference call (detector or recognizer). -/
def isInfer : Event → Bool
  | .detectCall _ => true
  | .recognizeCall _ _ => true
  | _ => false

/-- The event is a `cv::polylines` drawing call. -/
def isPoly : Event → Bool
  | .polylinesCall _ _ _ => true
  | _ => false

/-- The event is a `cv::imwrite` call. -/
def isImwrite : Event → Bool
  | .imwriteCall _ _ => true
  | _ => false

/-- The event is the construction of an SDK object
(context, profiler, detector or recognizer). -/
def isSdkCtor : Event → Bool
  | .mkContext _ _ => true
  | .mkProfiler _ => true
  | .addProfiler => true
  | .mkDetector _ => true
  | .mkRecognizer _ => true
  | _ => false

/-- The event produces output: a console print, a drawing onto the image,
or an image-file write. -/
def isOutput : Event → Bool
  | .writeStdout _ => true
  | .writeStderr _ => true
  | .polylinesCall _ _ _ => true
  | .imwriteCall _ _ => true
  | _ => false

/-! ### Spec-side descriptions of the output phase -/

/-- The events the output loop emits from box number `i` on, assuming all
`texts` accesses are in bounds. -/
def renderEvents (texts : List TextRecognition) : ℕ → List TextDetection → List Event
  | _, [] => []
  | i, b :: rest =>
    match texts[i]? with
    | none => []
    | some t => boxEvents i t b ++ renderEvents texts (i + 1) rest

/-- The stdout writes of the output loop from box number `i` on: for each
box, a `box[i]: text` header line, one `x: …, y: …, ` fragment per vertex
(coordinates in `%.2f` format), and a closing newline. -/
def stdoutSpec (texts : List TextRecognition) : ℕ → List TextDetection → List Event
  | _, [] => []
  | i, b :: rest =>
    match texts[i]? with
    | none => []
    | some t =>
      Event.writeStdout ("box[" ++ toString i ++ "]: " ++ t.text ++ "\n")
        :: (b.bbox.map fun pt => Event.writeStdout (fmtPoint pt))
        ++ [Event.writeStdout "\n"]
        ++ stdoutSpec texts (i + 1) rest

/-- The image after the output loop: the loaded image with one polygon of
truncated vertices appended per detected box, in box order. -/
def drawAll (img : Image) (bs : List TextDetection) : Image :=
  { img with polys := img.polys ++ bs.map fun b => polyOf b.bbox }

/-! ### Sample data used by the witnesses -/

/-- A detection with vertices exercising truncation on positive and
negative non-integral coordinates. -/
def sampleBox1 : TextDetection :=
  { bbox := [⟨mkRat 8 5, mkRat (-8) 5⟩, ⟨mkRat 2 1, mkRat 3 1⟩,
             ⟨mkRat 5 2, mkRat 7 2⟩, ⟨mkRat 0 1, mkRat 1 1⟩],
    score := mkRat 9 10 }

/-- A second detection with a single vertex. -/
def sampleBox2 : TextDetection :=
  { bbox := [⟨mkRat 1 1, mkRat 179 100⟩], score := mkRat 1 2 }

/-- A concrete environment: decoding succeeds exactly on `"demo.jpg"`, the
detector always returns two boxes, and the recognizer returns one text per
input box. -/
def sampleEnv : Env where
  imread p := if p = "demo.jpg" then some { path := p, polys := [] } else none
  detect _ := [sampleBox1, sampleBox2]
  recognize _ bs := bs.map fun _ => { text := "hi" }

/-- An environment whose recognizer returns no results at all. -/
def emptyRecogEnv : Env where
  imread p := if p = "demo.jpg" then some { path := p, polys := [] } else none
  detect _ := [sampleBox1, sampleBox2]
  recognize _ _ := []

/-- A well-formed command line: program name plus four arguments. -/
def sampleArgv : List String := ["ocr", "cpu", "det.m", "reg.m", "demo.jpg"]

/-- The image `sampleEnv` and `emptyRecogEnv` decode from `"demo.jpg"`. -/
def sampleLoaded : Image := { path := "demo.jpg", polys := [] }

/-! ### Lemmas about the warm-up loop -/

lemma warmupEvents_eq_join (env : Env) (img : Image) (n : ℕ) :
    warmupEvents env img n =
      (List.replicate n
        [Event.detectCall img, Event.recognizeCall img (env.detect img)]).flatten := by
  induction n with
  | zero => rfl
  | succ n ih => simp [warmupEvents, ih, List.replicate_succ]

lemma warmupEvents_mem {env : Env} {img : Image} {n : ℕ} {e : Event}
    (h : e ∈ warmupEvents env img n) :
    e = Event.detectCall img ∨ e = Event.recognizeCall img (env.detect img) := by
  induction n with
  | zero => simp [warmupEvents] at h
  | succ n ih =>
    simp only [warmupEvents, List.mem_cons] at h
    rcases h with h | h | h
    · exact Or.inl h
    · exact Or.inr h
    · exact ih h

/-! ### Lemmas about the output loop -/

lemma outputLoop_cons (texts : List TextRecognition) (img : Image) (i : ℕ)
    (b : TextDetection) (rest : List TextDetection) :
    outputLoop texts img i (b :: rest) =
      match texts[i]? with
      | none => .error ("out-of-bounds read: texts[" ++ toString i ++ "]")
      | some t =>
        match outputLoop texts (drawPoly img (polyOf b.bbox)) (i + 1) rest with
        | .error e => .error e
        | .ok r => .ok (r.1, boxEvents i t b ++ r.2) := rfl

lemma renderEvents_cons (texts : List TextRecognition) (i : ℕ)
    (b : TextDetection) (rest : List TextDetection) :
    renderEvents texts i (b :: rest) =
      match texts[i]? with
      | none => []
      | some t => boxEvents i t b ++ renderEvents texts (i + 1) rest := rfl

lemma stdoutSpec_cons (texts : List TextRecognition) (i : ℕ)
    (b : TextDetection) (rest : List TextDetection) :
    stdoutSpec texts i (b :: rest) =
      match texts[i]? with
      | none => []
      | some t =>
        Event.writeStdout ("box[" ++ toString i ++ "]: " ++ t.text ++ "\n")
          :: (b.bbox.map fun pt => Event.writeStdout (fmtPoint pt))
          ++ [Event.writeStdout "\n"]
          ++ stdoutSpec texts (i + 1) rest := rfl

lemma outputLoop_ok (texts : List TextRecognition) :
    ∀ (bs : List TextDetection) (i : ℕ) (img : Image),
      (∀ j, j < bs.length → i + j < texts.length) →
      outputLoop texts img i bs = .ok (drawAll img bs, renderEvents texts i bs) := by
  intro bs
  induction bs with
  | nil => intro i img _; simp [outputLoop, drawAll, renderEvents]
  | cons b rest ih =>
    intro i img h
    have hi : i < texts.length := by have := h 0 (by simp); omega
    cases hg : texts[i]? with
    | none =>
      exfalso
      have := List.getElem?_eq_none_iff.mp hg
      omega
    | some t =>
      have hrec := ih (i + 1) (drawPoly img (polyOf b.bbox))
        (fun j hj => by have := h (j + 1) (by simpa using hj); omega)
      rw [outputLoop_cons, hg, hrec, renderEvents_cons, hg]
      simp [drawAll, drawPoly, List.append_assoc]

lemma outputLoop_err (texts : List TextRecognition) :
    ∀ (bs : List TextDetection) (i : ℕ) (img : Image),
      bs ≠ [] →
      texts.length < i + bs.length →
      ∃ e, outputLoop texts img i bs = .error e := by
  intro bs
  induction bs with
  | nil => intro i img hne _; exact absurd rfl hne
  | cons b rest ih =>
    intro i img _ h
    cases hg : texts[i]? with
    | none => exact ⟨_, by rw [outputLoop_cons, hg]⟩
    | some t =>
      have hi : i < texts.length := by
        by_contra hc
        have : texts[i]? = none := List.getElem?_eq_none_iff.mpr (by omega)
        rw [this] at hg
        exact Option.noConfusion hg
      cases rest with
      | nil => simp at h; omega
      | cons b2 rest2 =>
        have hb : texts.length < (i + 1) + (b2 :: rest2).length := by
          simp at h ⊢; omega
        obtain ⟨e, he⟩ := ih (i + 1) (drawPoly img (polyOf b.bbox))
          (List.cons_ne_nil _ _) hb
        refine ⟨e, ?_⟩
        rw [outputLoop_cons, hg, he]

/-! ### The successful run, fully characterized -/

/-- The trace of a run that passes both guards and never reads `texts`
out of bounds: image load, SDK construction, 20 warm-up rounds, the final
round, the per-box output, and the image write. -/
def fullTrace (argv : List String) (env : Env) (img : Image) : List Event :=
  Event.imreadCall (argv.getD 4 "")
    :: (preEvents argv
    ++ (warmupEvents env img 20
    ++ ([Event.detectCall img, Event.recognizeCall img (env.detect img)]
    ++ (renderEvents (env.recognize img (env.detect img)) 0 (env.detect img)
    ++ [Event.imwriteCall "output_ocr.png" (drawAll img (env.detect img))]))))

lemma mainRun_ok_eq (argv : List String) (env : Env) (img : Image)
    (h5 : argv.length = 5) (himg : env.imread (argv.getD 4 "") = some img)
    (hlen : (env.detect img).length ≤ (env.recognize img (env.detect img)).length) :
    mainRun argv env = .ok (0, fullTrace argv env img) := by
  have hout := outputLoop_ok (env.recognize img (env.detect img)) (env.detect img) 0 img
    (fun j hj => by omega)
  unfold mainRun
  rw [if_neg (by omega : ¬argv.length ≠ 5)]
  simp only [himg, hout, fullTrace, List.append_assoc, List.cons_append,
    List.singleton_append]

lemma mainRun_len_of_ok {argv : List String} {env : Env} {img : Image}
    {c : ℤ} {tr : List Event}
    (h5 : argv.length = 5) (himg : env.imread (argv.getD 4 "") = some img)
    (h : mainRun argv env = .ok (c, tr)) :
    (env.detect img).length ≤ (env.recognize img (env.detect img)).length := by
  by_contra hc
  push_neg at hc
  have hne : env.detect img ≠ [] := by
    intro h0
    rw [h0] at hc
    simp at hc
  obtain ⟨e, he⟩ := outputLoop_err (env.recognize img (env.detect img)) (env.detect img)
    0 img hne (by omega)
  unfold mainRun at h
  rw [if_neg (by omega : ¬argv.length ≠ 5)] at h
  simp only [himg, he] at h
  exact Except.noConfusion h

lemma mainRun_ok_inversion {argv : List String} {env : Env} {img : Image}
    {c : ℤ} {tr : List Event}
    (h5 : argv.length = 5) (himg : env.imread (argv.getD 4 "") = some img)
    (h : mainRun argv env = .ok (c, tr)) :
    c = 0 ∧ tr = fullTrace argv env img := by
  have hlen := mainRun_len_of_ok h5 himg h
  have heq := mainRun_ok_eq argv env img h5 himg hlen
  rw [heq] at h
  have := Except.ok.inj h
  exact ⟨(Prod.mk.injEq _ _ _ _ ▸ this).1.symm, (Prod.mk.injEq _ _ _ _ ▸ this).2.symm⟩

/-! ### Membership and filter lemmas -/

lemma filter_eq_nil_of_false {p : Event → Bool} {l : List Event}
    (h : ∀ e ∈ l, p e = false) : l.filter p = [] := by
  induction l with
  | nil => rfl
  | cons e rest ih =>
    have he := h e (by simp)
    simp [List.filter_cons, he, ih fun x hx => h x (by simp [hx])]

lemma filter_eq_self_of_true {p : Event → Bool} {l : List Event}
    (h : ∀ e ∈ l, p e = true) : l.filter p = l := by
  induction l with
  | nil => rfl
  | cons e rest ih =>
    have he := h e (by simp)
    simp [List.filter_cons, he, ih fun x hx => h x (by simp [hx])]

lemma boxEvents_filter_stdout (i : ℕ) (t : TextRecognition) (b : TextDetection) :
    (boxEvents i t b).filter isStdout =
      Event.writeStdout ("box[" ++ toString i ++ "]: " ++ t.text ++ "\n")
        :: ((b.bbox.map fun pt => Event.writeStdout (fmtPoint pt))
        ++ [Event.writeStdout "\n"]) := by
  simp only [boxEvents, List.filter_cons, List.filter_append]
  rw [filter_eq_self_of_true (fun e he => by
    obtain ⟨pt, _, hpt⟩ := List.mem_map.mp he
    rw [← hpt]
    rfl)]
  simp [isStdout]

lemma boxEvents_filter_poly (i : ℕ) (t : TextRecognition) (b : TextDetection) :
    (boxEvents i t b).filter isPoly =
      [Event.polylinesCall (polyOf b.bbox) true green] := by
  simp only [boxEvents, List.filter_cons, List.filter_append]
  rw [filter_eq_nil_of_false (fun e he => by
    obtain ⟨pt, _, hpt⟩ := List.mem_map.mp he
    rw [← hpt]
    rfl)]
  simp [isPoly]

lemma boxEvents_mem {i : ℕ} {t : TextRecognition} {b : TextDetection} {e : Event}
    (h : e ∈ boxEvents i t b) :
    (∃ s, e = Event.writeStdout s) ∨ e = Event.polylinesCall (polyOf b.bbox) true green := by
  simp only [boxEvents, List.cons_append, List.mem_cons, List.mem_append,
    List.mem_map, List.mem_singleton, List.not_mem_nil, or_false] at h
  rcases h with h | h | h | h
  · exact Or.inl ⟨_, h⟩
  · obtain ⟨pt, _, hpt⟩ := h
    exact Or.inl ⟨_, hpt.symm⟩
  · exact Or.inl ⟨_, h⟩
  · exact Or.inr h

lemma renderEvents_mem {texts : List TextRecognition} {e : Event} :
    ∀ (bs : List TextDetection) (i : ℕ), e ∈ renderEvents texts i bs →
      (∃ s, e = Event.writeStdout s) ∨
        ∃ b, b ∈ bs ∧ e = Event.polylinesCall (polyOf b.bbox) true green := by
  intro bs
  induction bs with
  | nil => intro i h; simp [renderEvents] at h
  | cons b rest ih =>
    intro i h
    rw [renderEvents_cons] at h
    cases hg : texts[i]? with
    | none => rw [hg] at h; simp at h
    | some t =>
      rw [hg] at h
      rcases List.mem_append.mp h with hbe | hrest
      · rcases boxEvents_mem hbe with hs | hp
        · exact Or.inl hs
        · exact Or.inr ⟨b, by simp, hp⟩
      · rcases ih (i + 1) hrest with hs | ⟨b', hb', he'⟩
        · exact Or.inl hs
        · exact Or.inr ⟨b', by simp [hb'], he'⟩

lemma renderEvents_filter_stdout (texts : List TextRecognition) :
    ∀ (bs : List TextDetection) (i : ℕ),
      (renderEvents texts i bs).filter isStdout = stdoutSpec texts i bs := by
  intro bs
  induction bs with
  | nil => intro i; rfl
  | cons b rest ih =>
    intro i
    rw [renderEvents_cons, stdoutSpec_cons]
    cases hg : texts[i]? with
    | none => rfl
    | some t =>
      rw [List.filter_append, boxEvents_filter_stdout, ih]
      rfl

lemma renderEvents_filter_poly (texts : List TextRecognition) :
    ∀ (bs : List TextDetection) (i : ℕ),
      (∀ j, j < bs.length → i + j < texts.length) →
      (renderEvents texts i bs).filter isPoly =
        bs.map fun b => Event.polylinesCall (polyOf b.bbox) true green := by
  intro bs
  induction bs with
  | nil => intro i _; rfl
  | cons b rest ih =>
    intro i h
    have hi : i < texts.length := by have := h 0 (by simp); omega
    cases hg : texts[i]? with
    | none =>
      exfalso
      have := List.getElem?_eq_none_iff.mp hg
      omega
    | some t =>
      rw [renderEvents_cons, hg]
      have hrec := ih (i + 1) (fun j hj => by have := h (j + 1) (by simpa using hj); omega)
      rw [List.filter_append, boxEvents_filter_poly, hrec]
      simp

lemma warmupEvents_length (env : Env) (img : Image) (n : ℕ) :
    (warmupEvents env img n).length = 2 * n := by
  induction n with
  | zero => rfl
  | succ n ih => simp [warmupEvents, ih]; omega

end TextOcr

namespace TextOcr

/-- Filters that reject both inference events vanish on the warm-up
segment. -/
lemma warmupEvents_filter_eq_nil {p : Event → Bool} {env : Env} {img : Image} {n : ℕ}
    (hd : ∀ i, p (Event.detectCall i) = false)
    (hr : ∀ i bs, p (Event.recognizeCall i bs) = false) :
    (warmupEvents env img n).filter p = [] :=
  filter_eq_nil_of_false fun _ he => by
    rcases warmupEvents_mem he with rfl | rfl
    · exact hd _
    · exact hr _ _

/-- Filters that reject stdout writes and drawing calls vanish on the
output segment. -/
lemma renderEvents_filter_eq_nil {p : Event → Bool} {texts : List TextRecognition}
    {bs : List TextDetection} {i : ℕ}
    (hs : ∀ s, p (Event.writeStdout s) = false)
    (hp : ∀ a b c, p (Event.polylinesCall a b c) = false) :
    (renderEvents texts i bs).filter p = [] :=
  filter_eq_nil_of_false fun _ he => by
    rcases renderEvents_mem bs i he with ⟨s, rfl⟩ | ⟨b, -, rfl⟩
    · exact hs _
    · exact hp _ _ _

/-- Every event of a guarded, completed run is of one of seven shapes. -/
lemma fullTrace_mem {argv : List String} {env : Env} {img : Image} {e : Event}
    (h : e ∈ fullTrace argv env img) :
    e = Event.imreadCall (argv.getD 4 "")
    ∨ e ∈ preEvents argv
    ∨ e = Event.detectCall img
    ∨ e = Event.recognizeCall img (env.detect img)
    ∨ (∃ s, e = Event.writeStdout s)
    ∨ (∃ b, b ∈ env.detect img ∧ e = Event.polylinesCall (polyOf b.bbox) true green)
    ∨ e = Event.imwriteCall "output_ocr.png" (drawAll img (env.detect img)) := by
  simp only [fullTrace, List.mem_cons, List.mem_append, List.mem_singleton,
    List.not_mem_nil, or_false] at h
  rcases h with h | h | h | h | h | h
  · exact Or.inl h
  · exact Or.inr (Or.inl h)
  · rcases warmupEvents_mem h with rfl | rfl
    · exact Or.inr (Or.inr (Or.inl rfl))
    · exact Or.inr (Or.inr (Or.inr (Or.inl rfl)))
  · rcases h with h | h
    · exact Or.inr (Or.inr (Or.inl h))
    · exact Or.inr (Or.inr (Or.inr (Or.inl h)))
  · rcases renderEvents_mem _ _ h with hs | hb
    · exact Or.inr (Or.inr (Or.inr (Or.inr (Or.inl hs))))
    · exact Or.inr (Or.inr (Or.inr (Or.inr (Or.inr (Or.inl hb)))))
  · exact Or.inr (Or.inr (Or.inr (Or.inr (Or.inr (Or.inr h)))))

/-! ### The claims -/

/-- C1: in every run that completes, the exit status is 0 or 1, and it is 1
exactly when one of the two guard checks fails (argument count different
from 5, or the decoded image has no data); these guards are the only
failure conditions the program tests. -/
theorem spec_C1 (argv : List String) (env : Env) (c : ℤ) (tr : List Event)
    (h : mainRun argv env = .ok (c, tr)) :
    (c = 0 ∨ c = 1) ∧ (c = 1 ↔ GuardFail argv env) := by
  by_cases h5 : argv.length = 5
  · cases himg : env.imread (argv.getD 4 "") with
    | none =>
      unfold mainRun at h
      rw [if_neg (by omega)] at h
      simp only [himg, Except.ok.injEq, Prod.mk.injEq] at h
      obtain ⟨hc, -⟩ := h
      refine ⟨Or.inr hc.symm, ?_⟩
      rw [← hc]
      exact iff_of_true rfl (Or.inr himg)
    | some img =>
      obtain ⟨hc, -⟩ := mainRun_ok_inversion h5 himg h
      subst hc
      refine ⟨Or.inl rfl, ?_⟩
      refine iff_of_false (by norm_num) ?_
      rintro (hg | hg)
      · exact hg h5
      · rw [himg] at hg
        exact Option.noConfusion hg
  · unfold mainRun at h
    rw [if_pos h5] at h
    simp only [Except.ok.injEq, Prod.mk.injEq] at h
    obtain ⟨hc, -⟩ := h
    refine ⟨Or.inr hc.symm, ?_⟩
    rw [← hc]
    exact iff_of_true rfl (Or.inl h5)

/-- C1 witness: the sample run completes with exit code 0 and its guard
condition is false. -/
theorem spec_C1_witness :
    ((0 : ℤ) = 0 ∨ (0 : ℤ) = 1) ∧ ((0 : ℤ) = 1 ↔ GuardFail sampleArgv sampleEnv) :=
  spec_C1 sampleArgv sampleEnv 0 (runTrace (mainRun sampleArgv sampleEnv)) rfl

/-- C6: when a guard check fails, the run completes with exit code 1, its
trace holds exactly one stderr write and no SDK construction, no inference,
no drawing, no stdout write and no image write; the trace is exactly the
usage message (wrong argument count) or the image-load attempt followed by
the load-failure message. -/
theorem spec_C6 (argv : List String) (env : Env) (h : GuardFail argv env) :
    runCode (mainRun argv env) = some 1
    ∧ ((runTrace (mainRun argv env)).filter isStderr).length = 1
    ∧ (∀ e ∈ runTrace (mainRun argv env),
        isSdkCtor e = false ∧ isInfer e = false ∧ isPoly e = false
          ∧ isImwrite e = false ∧ isStdout e = false)
    ∧ (argv.length ≠ 5 → runTrace (mainRun argv env) = [Event.writeStderr usageMsg])
    ∧ (argv.length = 5 →
        runTrace (mainRun argv env) =
          [Event.imreadCall (argv.getD 4 ""),
           Event.writeStderr ("failed to load image: " ++ argv.getD 4 "" ++ "\n")]) := by
  by_cases h5 : argv.length = 5
  · have himg : env.imread (argv.getD 4 "") = none := by
      rcases h with h | h
      · exact absurd h5 h
      · exact h
    have hrun : mainRun argv env =
        .ok (1, [Event.imreadCall (argv.getD 4 ""),
                 Event.writeStderr ("failed to load image: " ++ argv.getD 4 "" ++ "\n")]) := by
      unfold mainRun
      rw [if_neg (by omega)]
      simp only [himg]
    refine ⟨by simp [hrun, runCode], by simp [hrun, runTrace, isStderr], ?_, ?_, ?_⟩
    · intro e he
      simp only [hrun, runTrace, List.mem_cons, List.mem_singleton,
        List.not_mem_nil, or_false] at he
      rcases he with rfl | rfl
      · exact ⟨rfl, rfl, rfl, rfl, rfl⟩
      · exact ⟨rfl, rfl, rfl, rfl, rfl⟩
    · intro hne
      exact absurd h5 hne
    · intro _
      simp [hrun, runTrace]
  · have hrun : mainRun argv env = .ok (1, [Event.writeStderr usageMsg]) := by
      unfold mainRun
      rw [if_pos h5]
    refine ⟨by simp [hrun, runCode], by simp [hrun, runTrace, isStderr], ?_, ?_, ?_⟩
    · intro e he
      simp only [hrun, runTrace, List.mem_singleton, List.mem_cons,
        List.not_mem_nil, or_false] at he
      subst he
      exact ⟨rfl, rfl, rfl, rfl, rfl⟩
    · intro _
      simp [hrun, runTrace]
    · intro h5'
      exact absurd h5' h5

/-- C6 witness: a run with a single command-line argument fails the
argument-count guard and behaves as C6 states. -/
theorem spec_C6_witness :
    runCode (mainRun ["ocr"] sampleEnv) = some 1
    ∧ ((runTrace (mainRun ["ocr"] sampleEnv)).filter isStderr).length = 1
    ∧ (∀ e ∈ runTrace (mainRun ["ocr"] sampleEnv),
        isSdkCtor e = false ∧ isInfer e = false ∧ isPoly e = false
          ∧ isImwrite e = false ∧ isStdout e = false)
    ∧ (["ocr"].length ≠ 5 → runTrace (mainRun ["ocr"] sampleEnv) = [Event.writeStderr usageMsg])
    ∧ (["ocr"].length = 5 →
        runTrace (mainRun ["ocr"] sampleEnv) =
          [Event.imreadCall (["ocr"].getD 4 ""),
           Event.writeStderr ("failed to load image: " ++ ["ocr"].getD 4 "" ++ "\n")]) :=
  spec_C6 ["ocr"] sampleEnv (by decide)

/-- C8: in a run that passes both guards, the program completes (all
accesses `texts[i]` for `i < bboxes.size()` are in bounds) exactly when the
recognizer returns at least one text per input bounding box. -/
theorem spec_C8 (argv : List String) (env : Env) (img : Image)
    (h5 : argv.length = 5) (himg : env.imread (argv.getD 4 "") = some img) :
    completes (mainRun argv env) = true ↔
      (env.detect img).length ≤ (env.recognize img (env.detect img)).length := by
  constructor
  · intro hc
    cases hm : mainRun argv env with
    | error e =>
      rw [hm] at hc
      simp [completes] at hc
    | ok p =>
      exact mainRun_len_of_ok h5 himg (show mainRun argv env = .ok (p.1, p.2) by rw [hm])
  · intro hlen
    rw [mainRun_ok_eq argv env img h5 himg hlen]
    rfl

/-- C8 witness: with a recognizer returning no texts for two detected
boxes, the run does not complete, matching the length condition. -/
theorem spec_C8_witness :
    completes (mainRun sampleArgv emptyRecogEnv) = true ↔
      (emptyRecogEnv.detect sampleLoaded).length ≤
        (emptyRecogEnv.recognize sampleLoaded (emptyRecogEnv.detect sampleLoaded)).length :=
  spec_C8 sampleArgv emptyRecogEnv sampleLoaded rfl rfl

end TextOcr

namespace TextOcr

/-- C2: all inference calls of a guarded, completed run form 21 ordered
detect-then-recognize rounds on the loaded image, the recognizer always
receiving exactly the full box list produced by the immediately preceding
detection. -/
theorem spec_C2 (argv : List String) (env : Env) (img : Image) (c : ℤ) (tr : List Event)
    (h5 : argv.length = 5) (himg : env.imread (argv.getD 4 "") = some img)
    (h : mainRun argv env = .ok (c, tr)) :
    tr.filter isInfer =
      (List.replicate 21
        [Event.detectCall img, Event.recognizeCall img (env.detect img)]).flatten := by
  obtain ⟨-, htr⟩ := mainRun_ok_inversion h5 himg h
  subst htr
  have hw : (warmupEvents env img 20).filter isInfer = warmupEvents env img 20 :=
    filter_eq_self_of_true fun e he => by
      rcases warmupEvents_mem he with rfl | rfl <;> rfl
  have hr : (renderEvents (env.recognize img (env.detect img)) 0
      (env.detect img)).filter isInfer = [] :=
    renderEvents_filter_eq_nil (fun _ => rfl) (fun _ _ _ => rfl)
  have hpre : (preEvents argv).filter isInfer = [] := rfl
  simp only [fullTrace, List.filter_cons, List.filter_append, isInfer, hw, hr, hpre]
  rw [warmupEvents_eq_join, show (21 : ℕ) = 20 + 1 from rfl, List.replicate_succ']
  simp

/-- C2 witness: the sample run has exactly 21 alternating inference
rounds. -/
theorem spec_C2_witness :
    (runTrace (mainRun sampleArgv sampleEnv)).filter isInfer =
      (List.replicate 21
        [Event.detectCall sampleLoaded,
         Event.recognizeCall sampleLoaded (sampleEnv.detect sampleLoaded)]).flatten :=
  spec_C2 sampleArgv sampleEnv sampleLoaded 0
    (runTrace (mainRun sampleArgv sampleEnv)) rfl rfl rfl

/-- C5: in a guarded, completed run, the drawing calls are exactly one
closed green polygon through the truncated vertices of each finally
detected box, in box order; exactly one image write occurs, of the loaded
image with all those polygons drawn, and it is the last event of the
run. -/
theorem spec_C5 (argv : List String) (env : Env) (img : Image) (c : ℤ) (tr : List Event)
    (h5 : argv.length = 5) (himg : env.imread (argv.getD 4 "") = some img)
    (h : mainRun argv env = .ok (c, tr)) :
    tr.filter isPoly =
      (env.detect img).map (fun b => Event.polylinesCall (polyOf b.bbox) true green)
    ∧ tr.filter isImwrite =
        [Event.imwriteCall "output_ocr.png" (drawAll img (env.detect img))]
    ∧ tr.getLast? =
        some (Event.imwriteCall "output_ocr.png" (drawAll img (env.detect img))) := by
  have hlen := mainRun_len_of_ok h5 himg h
  obtain ⟨-, htr⟩ := mainRun_ok_inversion h5 himg h
  subst htr
  refine ⟨?_, ?_, ?_⟩
  · have hw : (warmupEvents env img 20).filter isPoly = [] :=
      warmupEvents_filter_eq_nil (fun _ => rfl) (fun _ _ => rfl)
    have hr := renderEvents_filter_poly (env.recognize img (env.detect img))
      (env.detect img) 0 (fun j hj => by omega)
    have hpre : (preEvents argv).filter isPoly = [] := rfl
    simp only [fullTrace, List.filter_cons, List.filter_append, isPoly, hw, hr, hpre]
    simp
  · have hw : (warmupEvents env img 20).filter isImwrite = [] :=
      warmupEvents_filter_eq_nil (fun _ => rfl) (fun _ _ => rfl)
    have hr : (renderEvents (env.recognize img (env.detect img)) 0
        (env.detect img)).filter isImwrite = [] :=
      renderEvents_filter_eq_nil (fun _ => rfl) (fun _ _ _ => rfl)
    have hpre : (preEvents argv).filter isImwrite = [] := rfl
    simp only [fullTrace, List.filter_cons, List.filter_append, isImwrite, hw, hr, hpre]
    simp
  · have hsplit : fullTrace argv env img =
        (Event.imreadCall (argv.getD 4 "")
          :: (preEvents argv ++ (warmupEvents env img 20
            ++ ([Event.detectCall img, Event.recognizeCall img (env.detect img)]
            ++ renderEvents (env.recognize img (env.detect img)) 0 (env.detect img)))))
          ++ [Event.imwriteCall "output_ocr.png" (drawAll img (env.detect img))] := by
      simp [fullTrace, List.append_assoc]
    rw [hsplit, List.getLast?_concat]

/-- C5 witness: the sample run draws one polygon per detected box and ends
with the single image write. -/
theorem spec_C5_witness :
    (runTrace (mainRun sampleArgv sampleEnv)).filter isPoly =
      (sampleEnv.detect sampleLoaded).map
        (fun b => Event.polylinesCall (polyOf b.bbox) true green)
    ∧ (runTrace (mainRun sampleArgv sampleEnv)).filter isImwrite =
        [Event.imwriteCall "output_ocr.png"
          (drawAll sampleLoaded (sampleEnv.detect sampleLoaded))]
    ∧ (runTrace (mainRun sampleArgv sampleEnv)).getLast? =
        some (Event.imwriteCall "output_ocr.png"
          (drawAll sampleLoaded (sampleEnv.detect sampleLoaded))) :=
  spec_C5 sampleArgv sampleEnv sampleLoaded 0
    (runTrace (mainRun sampleArgv sampleEnv)) rfl rfl rfl

/-- C7: the stdout writes of a guarded, completed run are exactly, for each
box index `i` in order: a `box[i]: <text>` header line, one
`x: <x>, y: <y>, ` fragment per vertex with both coordinates in two-decimal
format, and a closing newline. -/
theorem spec_C7 (argv : List String) (env : Env) (img : Image) (c : ℤ) (tr : List Event)
    (h5 : argv.length = 5) (himg : env.imread (argv.getD 4 "") = some img)
    (h : mainRun argv env = .ok (c, tr)) :
    tr.filter isStdout =
      stdoutSpec (env.recognize img (env.detect img)) 0 (env.detect img) := by
  obtain ⟨-, htr⟩ := mainRun_ok_inversion h5 himg h
  subst htr
  have hw : (warmupEvents env img 20).filter isStdout = [] :=
    warmupEvents_filter_eq_nil (fun _ => rfl) (fun _ _ => rfl)
  have hr := renderEvents_filter_stdout (env.recognize img (env.detect img))
    (env.detect img) 0
  have hpre : (preEvents argv).filter isStdout = [] := rfl
  simp only [fullTrace, List.filter_cons, List.filter_append, isStdout, hw, hr, hpre]
  simp

/-- C7 witness: the sample run prints exactly the specified lines. -/
theorem spec_C7_witness :
    (runTrace (mainRun sampleArgv sampleEnv)).filter isStdout =
      stdoutSpec (sampleEnv.recognize sampleLoaded (sampleEnv.detect sampleLoaded)) 0
        (sampleEnv.detect sampleLoaded) :=
  spec_C7 sampleArgv sampleEnv sampleLoaded 0
    (runTrace (mainRun sampleArgv sampleEnv)) rfl rfl rfl

end TextOcr

namespace TextOcr

/-- C3: a guarded, completed run starts with the image load and the SDK
construction followed by exactly 20 warm-up detect/recognize rounds, and no
event of that whole prefix produces any output (no print, no drawing, no
file write): the warm-up results are discarded. -/
theorem spec_C3 (argv : List String) (env : Env) (img : Image) (c : ℤ) (tr : List Event)
    (h5 : argv.length = 5) (himg : env.imread (argv.getD 4 "") = some img)
    (h : mainRun argv env = .ok (c, tr)) :
    tr = (Event.imreadCall (argv.getD 4 "") :: preEvents argv)
        ++ (List.replicate 20
            [Event.detectCall img, Event.recognizeCall img (env.detect img)]).flatten
        ++ tr.drop 46
    ∧ (∀ e ∈ (Event.imreadCall (argv.getD 4 "") :: preEvents argv)
          ++ (List.replicate 20
              [Event.detectCall img, Event.recognizeCall img (env.detect img)]).flatten,
        isOutput e = false) := by
  obtain ⟨-, htr⟩ := mainRun_ok_inversion h5 himg h
  subst htr
  constructor
  · have hsplit : fullTrace argv env img =
        ((Event.imreadCall (argv.getD 4 "") :: preEvents argv) ++ warmupEvents env img 20)
          ++ ([Event.detectCall img, Event.recognizeCall img (env.detect img)]
            ++ (renderEvents (env.recognize img (env.detect img)) 0 (env.detect img)
            ++ [Event.imwriteCall "output_ocr.png" (drawAll img (env.detect img))])) := by
      simp [fullTrace, List.append_assoc]
    have hlen46 : ((Event.imreadCall (argv.getD 4 "") :: preEvents argv)
        ++ warmupEvents env img 20).length = 46 := by
      simp [preEvents, warmupEvents_length]
    have hdrop : (fullTrace argv env img).drop 46 =
        [Event.detectCall img, Event.recognizeCall img (env.detect img)]
          ++ (renderEvents (env.recognize img (env.detect img)) 0 (env.detect img)
          ++ [Event.imwriteCall "output_ocr.png" (drawAll img (env.detect img))]) := by
      rw [hsplit, ← hlen46, List.drop_left]
    rw [hdrop]
    rw [hsplit, warmupEvents_eq_join]
  · intro e he
    rcases List.mem_append.mp he with hin | hwm
    · simp only [preEvents, List.mem_cons, List.mem_singleton,
        List.not_mem_nil, or_false] at hin
      rcases hin with rfl | rfl | rfl | rfl | rfl | rfl <;> rfl
    · rw [← warmupEvents_eq_join] at hwm
      rcases warmupEvents_mem hwm with rfl | rfl <;> rfl

/-- C3 witness: the first 46 events of the sample run are the construction
prefix plus the 20 output-free warm-up rounds. -/
theorem spec_C3_witness :
    runTrace (mainRun sampleArgv sampleEnv) =
      (Event.imreadCall (sampleArgv.getD 4 "") :: preEvents sampleArgv)
        ++ (List.replicate 20
            [Event.detectCall sampleLoaded,
             Event.recognizeCall sampleLoaded (sampleEnv.detect sampleLoaded)]).flatten
        ++ (runTrace (mainRun sampleArgv sampleEnv)).drop 46
    ∧ (∀ e ∈ (Event.imreadCall (sampleArgv.getD 4 "") :: preEvents sampleArgv)
          ++ (List.replicate 20
              [Event.detectCall sampleLoaded,
               Event.recognizeCall sampleLoaded (sampleEnv.detect sampleLoaded)]).flatten,
        isOutput e = false) :=
  spec_C3 sampleArgv sampleEnv sampleLoaded 0
    (runTrace (mainRun sampleArgv sampleEnv)) rfl rfl rfl

/-- C4: after the 46-event prefix (construction plus warm-up), a guarded,
completed run performs exactly one further detection and one further
recognition, and everything after them — the per-box output and the final
image write — is determined by that final round's boxes and texts; no
inference happens after the final round. -/
theorem spec_C4 (argv : List String) (env : Env) (img : Image) (c : ℤ) (tr : List Event)
    (h5 : argv.length = 5) (himg : env.imread (argv.getD 4 "") = some img)
    (h : mainRun argv env = .ok (c, tr)) :
    tr.drop 46 = [Event.detectCall img, Event.recognizeCall img (env.detect img)]
        ++ (renderEvents (env.recognize img (env.detect img)) 0 (env.detect img)
        ++ [Event.imwriteCall "output_ocr.png" (drawAll img (env.detect img))])
    ∧ (∀ e ∈ tr.drop 48, isInfer e = false) := by
  obtain ⟨-, htr⟩ := mainRun_ok_inversion h5 himg h
  subst htr
  have hsplit : fullTrace argv env img =
      ((Event.imreadCall (argv.getD 4 "") :: preEvents argv) ++ warmupEvents env img 20)
        ++ ([Event.detectCall img, Event.recognizeCall img (env.detect img)]
          ++ (renderEvents (env.recognize img (env.detect img)) 0 (env.detect img)
          ++ [Event.imwriteCall "output_ocr.png" (drawAll img (env.detect img))])) := by
    simp [fullTrace, List.append_assoc]
  have hlen46 : ((Event.imreadCall (argv.getD 4 "") :: preEvents argv)
      ++ warmupEvents env img 20).length = 46 := by
    simp [preEvents, warmupEvents_length]
  have hdrop46 : (fullTrace argv env img).drop 46 =
      [Event.detectCall img, Event.recognizeCall img (env.detect img)]
        ++ (renderEvents (env.recognize img (env.detect img)) 0 (env.detect img)
        ++ [Event.imwriteCall "output_ocr.png" (drawAll img (env.detect img))]) := by
    rw [hsplit, ← hlen46, List.drop_left]
  refine ⟨hdrop46, ?_⟩
  have hsplit48 : fullTrace argv env img =
      (((Event.imreadCall (argv.getD 4 "") :: preEvents argv) ++ warmupEvents env img 20)
        ++ [Event.detectCall img, Event.recognizeCall img (env.detect img)])
        ++ (renderEvents (env.recognize img (env.detect img)) 0 (env.detect img)
          ++ [Event.imwriteCall "output_ocr.png" (drawAll img (env.detect img))]) := by
    simp [fullTrace, List.append_assoc]
  have hlen48 : (((Event.imreadCall (argv.getD 4 "") :: preEvents argv)
      ++ warmupEvents env img 20)
      ++ [Event.detectCall img, Event.recognizeCall img (env.detect img)]).length = 48 := by
    simp [preEvents, warmupEvents_length]
  have hdrop48 : (fullTrace argv env img).drop 48 =
      renderEvents (env.recognize img (env.detect img)) 0 (env.detect img)
        ++ [Event.imwriteCall "output_ocr.png" (drawAll img (env.detect img))] := by
    rw [hsplit48, ← hlen48, List.drop_left]
  rw [hdrop48]
  intro e he
  rcases List.mem_append.mp he with hr | hw
  · rcases renderEvents_mem _ _ hr with ⟨s, rfl⟩ | ⟨b, -, rfl⟩ <;> rfl
  · simp only [List.mem_singleton] at hw
    subst hw
    rfl

/-- C4 witness: in the sample run, the final round and its output follow
the 46-event prefix, with no inference after position 48. -/
theorem spec_C4_witness :
    (runTrace (mainRun sampleArgv sampleEnv)).drop 46 =
      [Event.detectCall sampleLoaded,
       Event.recognizeCall sampleLoaded (sampleEnv.detect sampleLoaded)]
        ++ (renderEvents
              (sampleEnv.recognize sampleLoaded (sampleEnv.detect sampleLoaded)) 0
              (sampleEnv.detect sampleLoaded)
        ++ [Event.imwriteCall "output_ocr.png"
              (drawAll sampleLoaded (sampleEnv.detect sampleLoaded))])
    ∧ (∀ e ∈ (runTrace (mainRun sampleArgv sampleEnv)).drop 48, isInfer e = false) :=
  spec_C4 sampleArgv sampleEnv sampleLoaded 0
    (runTrace (mainRun sampleArgv sampleEnv)) rfl rfl rfl

end TextOcr

namespace TextOcr

/-- C9: in every run that completes, any image write goes to the hardcoded
path `output_ocr.png` and any profiler is constructed on the hardcoded path
`/deploee-tmp/profile.bin`, whatever the command line; the command line
feeds exactly the device name (argv 1), the two model paths (argv 2, 3) and
the input image path (argv 4), as the construction prefix shows. -/
theorem spec_C9 (argv : List String) (env : Env) (c : ℤ) (tr : List Event)
    (h : mainRun argv env = .ok (c, tr)) :
    (∀ p i, Event.imwriteCall p i ∈ tr → p = "output_ocr.png")
    ∧ (∀ p, Event.mkProfiler p ∈ tr → p = "/deploee-tmp/profile.bin")
    ∧ (argv.length = 5 → ∀ img, env.imread (argv.getD 4 "") = some img →
        tr.take 6 =
          [Event.imreadCall (argv.getD 4 ""),
           Event.mkContext (argv.getD 1 "") 0,
           Event.mkProfiler "/deploee-tmp/profile.bin",
           Event.addProfiler,
           Event.mkDetector (argv.getD 2 ""),
           Event.mkRecognizer (argv.getD 3 "")]) := by
  by_cases h5 : argv.length = 5
  · cases himg : env.imread (argv.getD 4 "") with
    | none =>
      unfold mainRun at h
      rw [if_neg (by omega)] at h
      simp only [himg, Except.ok.injEq, Prod.mk.injEq] at h
      obtain ⟨-, htr⟩ := h
      refine ⟨?_, ?_, ?_⟩
      · intro p i hmem
        rw [← htr] at hmem
        simp at hmem
      · intro p hmem
        rw [← htr] at hmem
        simp at hmem
      · intro _ img himg'
        exact Option.noConfusion himg'
    | some img =>
      obtain ⟨-, htr⟩ := mainRun_ok_inversion h5 himg h
      subst htr
      refine ⟨?_, ?_, ?_⟩
      · intro p i hmem
        rcases fullTrace_mem hmem with h1 | h1 | h1 | h1 | ⟨s, h1⟩ | ⟨b, -, h1⟩ | h1
        · exact absurd h1 (by simp)
        · simp [preEvents] at h1
        · exact absurd h1 (by simp)
        · exact absurd h1 (by simp)
        · exact absurd h1 (by simp)
        · exact absurd h1 (by simp)
        · injection h1 with hp hi
      · intro p hmem
        rcases fullTrace_mem hmem with h1 | h1 | h1 | h1 | ⟨s, h1⟩ | ⟨b, -, h1⟩ | h1
        · exact absurd h1 (by simp)
        · simp only [preEvents, List.mem_cons, List.mem_singleton,
            List.not_mem_nil, or_false] at h1
          rcases h1 with h1 | h1 | h1 | h1 | h1
          · exact absurd h1 (by simp)
          · injection h1 with hp
          · exact absurd h1 (by simp)
          · exact absurd h1 (by simp)
          · exact absurd h1 (by simp)
        · exact absurd h1 (by simp)
        · exact absurd h1 (by simp)
        · exact absurd h1 (by simp)
        · exact absurd h1 (by simp)
        · exact absurd h1 (by simp)
      · intro _ img' himg'
        have hsplit : fullTrace argv env img =
            (Event.imreadCall (argv.getD 4 "") :: preEvents argv)
              ++ (warmupEvents env img 20
                ++ ([Event.detectCall img, Event.recognizeCall img (env.detect img)]
                ++ (renderEvents (env.recognize img (env.detect img)) 0 (env.detect img)
                ++ [Event.imwriteCall "output_ocr.png"
                      (drawAll img (env.detect img))]))) := by
          simp [fullTrace, List.append_assoc]
        have hlen6 : (Event.imreadCall (argv.getD 4 "") :: preEvents argv).length = 6 := by
          simp [preEvents]
        rw [hsplit, ← hlen6, List.take_left]
        simp [preEvents]
  · unfold mainRun at h
    rw [if_pos h5] at h
    simp only [Except.ok.injEq, Prod.mk.injEq] at h
    obtain ⟨-, htr⟩ := h
    refine ⟨?_, ?_, ?_⟩
    · intro p i hmem
      rw [← htr] at hmem
      simp at hmem
    · intro p hmem
      rw [← htr] at hmem
      simp at hmem
    · intro h5'
      exact absurd h5' h5

/-- C9 witness: the sample run writes only to `output_ocr.png`, its
profiler path is the hardcoded one, and its first six events wire the four
arguments into their roles. -/
theorem spec_C9_witness :
    (∀ p i, Event.imwriteCall p i ∈ runTrace (mainRun sampleArgv sampleEnv) →
        p = "output_ocr.png")
    ∧ (∀ p, Event.mkProfiler p ∈ runTrace (mainRun sampleArgv sampleEnv) →
        p = "/deploee-tmp/profile.bin")
    ∧ (sampleArgv.length = 5 → ∀ img,
        sampleEnv.imread (sampleArgv.getD 4 "") = some img →
        (runTrace (mainRun sampleArgv sampleEnv)).take 6 =
          [Event.imreadCall (sampleArgv.getD 4 ""),
           Event.mkContext (sampleArgv.getD 1 "") 0,
           Event.mkProfiler "/deploee-tmp/profile.bin",
           Event.addProfiler,
           Event.mkDetector (sampleArgv.getD 2 ""),
           Event.mkRecognizer (sampleArgv.getD 3 "")]) :=
  spec_C9 sampleArgv sampleEnv 0 (runTrace (mainRun sampleArgv sampleEnv)) rfl

/-- C10: every polygon drawn by a guarded, completed run has as vertices
the truncation toward zero of some final box's coordinates, and truncation
toward zero differs from rounding to nearest on both signs (8/5 truncates
to 1 but rounds to 2; -8/5 truncates to -1 but rounds to -2). -/
theorem spec_C10 (argv : List String) (env : Env) (img : Image) (c : ℤ) (tr : List Event)
    (h5 : argv.length = 5) (himg : env.imread (argv.getD 4 "") = some img)
    (h : mainRun argv env = .ok (c, tr)) :
    (∀ pts closed col, Event.polylinesCall pts closed col ∈ tr →
        ∃ b, b ∈ env.detect img
          ∧ pts = b.bbox.map fun pt => (truncQ pt.x, truncQ pt.y))
    ∧ truncQ (mkRat 8 5) = 1 ∧ roundNearest (mkRat 8 5) = 2
    ∧ truncQ (mkRat (-8) 5) = -1 ∧ roundNearest (mkRat (-8) 5) = -2 := by
  refine ⟨?_, by decide, by decide, by decide, by decide⟩
  obtain ⟨-, htr⟩ := mainRun_ok_inversion h5 himg h
  subst htr
  intro pts closed col hmem
  rcases fullTrace_mem hmem with h1 | h1 | h1 | h1 | ⟨s, h1⟩ | ⟨b, hb, h1⟩ | h1
  · exact absurd h1 (by simp)
  · simp [preEvents] at h1
  · exact absurd h1 (by simp)
  · exact absurd h1 (by simp)
  · exact absurd h1 (by simp)
  · refine ⟨b, hb, ?_⟩
    injection h1 with hpts hclosed hcol
  · exact absurd h1 (by simp)

/-- C10 witness: the polygons of the sample run are the truncated box
vertices, and the truncation/rounding contrast holds at the sample
coordinates. -/
theorem spec_C10_witness :
    (∀ pts closed col,
        Event.polylinesCall pts closed col ∈ runTrace (mainRun sampleArgv sampleEnv) →
        ∃ b, b ∈ sampleEnv.detect sampleLoaded
          ∧ pts = b.bbox.map fun pt => (truncQ pt.x, truncQ pt.y))
    ∧ truncQ (mkRat 8 5) = 1 ∧ roundNearest (mkRat 8 5) = 2
    ∧ truncQ (mkRat (-8) 5) = -1 ∧ roundNearest (mkRat (-8) 5) = -2 :=
  spec_C10 sampleArgv sampleEnv sampleLoaded 0
    (runTrace (mainRun sampleArgv sampleEnv)) rfl rfl rfl

end TextOcr
